import Mathlib

/-!
Verification development for the TaskMasterPro repository
(`task_manager.py`, `data_storage.py`): a shallow embedding of its task
data model, filtering, CRUD operations, and JSON-file persistence layer,
with proofs of the spec's testable properties.

Modelling conventions:
* Python strings are Lean `String`s; where character-level work is needed
  (date formatting and parsing), we work on `List Char` (`String.data`).
* `datetime.date` values are `PyDate` triples; Python guarantees a `date`
  object always holds a valid calendar date, which here is the `PyDate.Valid`
  predicate.
* `strftime "%Y-%m-%d"` is modelled as zero-padded 4/2/2-digit decimal
  formatting, `strptime` as its validating inverse (exactly four year digits,
  one-or-two month/day digits, calendar validity), matching CPython's
  `_strptime` regular expressions.
* File input/output is modelled as a pure association-list file system
  (`FS`); operations that Python performs in `try/except` blocks that can
  never raise are total functions, and the outcomes of fallible operations
  in `save_tasks` (backup copy, write, restore) are supplied by an
  `IOOracle`.
-/

namespace TaskMaster

/-! ## Decimal digit formatting and parsing (for strftime / strptime) -/

/-- A decimal digit character, `'0'` to `'9'`. -/
def isDigitC (c : Char) : Bool :=
  decide (48 ≤ c.toNat) && decide (c.toNat ≤ 57)

/-- The character for a single decimal digit. -/
def digitChar : Nat → Char
  | 0 => '0' | 1 => '1' | 2 => '2' | 3 => '3' | 4 => '4'
  | 5 => '5' | 6 => '6' | 7 => '7' | 8 => '8' | _ => '9'

/-- Big-endian decimal digits of a natural number (no leading zeros). -/
def natChars (n : Nat) : List Char :=
  if h : n < 10 then [digitChar n]
  else natChars (n / 10) ++ [digitChar (n % 10)]
  decreasing_by exact Nat.div_lt_self (by omega) (by omega)

/-- Zero-pad a digit string on the left to width `k`. -/
def padTo (k : Nat) (l : List Char) : List Char :=
  List.replicate (k - l.length) '0' ++ l

/-- Two-digit zero-padded decimal (strftime `%m`, `%d`, `%H`, `%M`, `%S`). -/
def pad2 (n : Nat) : List Char := padTo 2 (natChars n)

/-- Four-digit zero-padded decimal (strftime `%Y`). -/
def pad4 (n : Nat) : List Char := padTo 4 (natChars n)

/-- Numeric value of a digit character. -/
def digitVal (c : Char) : Nat := c.toNat - 48

/-- Accumulating decimal parse of a digit string. -/
def parseNatAux : List Char → Nat → Nat
  | [], acc => acc
  | c :: cs, acc => parseNatAux cs (acc * 10 + digitVal c)

/-- Decimal value of a digit string. -/
def parseNatL (l : List Char) : Nat := parseNatAux l 0

/-- Split a character list on `'-'` separators (never returns `[]`). -/
def splitDash : List Char → List (List Char)
  | [] => [[]]
  | c :: cs =>
    if c = '-' then [] :: splitDash cs
    else
      match splitDash cs with
      | [] => [[c]]
      | t :: ts => (c :: t) :: ts

/-! ## Calendar dates (`datetime.date`) -/

/-- A `datetime.date` value: year, month, day.  Python's `date` type
guarantees `PyDate.Valid` by construction. -/
structure PyDate where
  year : Nat
  month : Nat
  day : Nat
deriving DecidableEq, Repr

/-- Gregorian leap year, as `calendar.isleap` / `datetime` use it. -/
def isLeap (y : Nat) : Bool :=
  y % 4 = 0 && (y % 100 ≠ 0 || y % 400 = 0)

/-- Days in a month of a year (as `datetime` validates them). -/
def daysInMonth (y m : Nat) : Nat :=
  if m = 2 then (if isLeap y then 29 else 28)
  else if m = 4 || m = 6 || m = 9 || m = 11 then 30
  else 31

/-- The invariant of every Python `date` object: `datetime.MINYEAR = 1`,
`datetime.MAXYEAR = 9999`, month `1..12`, day valid for the month. -/
def PyDate.Valid (d : PyDate) : Prop :=
  1 ≤ d.year ∧ d.year ≤ 9999 ∧ 1 ≤ d.month ∧ d.month ≤ 12 ∧
  1 ≤ d.day ∧ d.day ≤ daysInMonth d.year d.month

instance (d : PyDate) : Decidable d.Valid := by
  unfold PyDate.Valid; infer_instance

/-- Python `date` comparison `a < b`: lexicographic on (year, month, day). -/
def PyDate.ltb (a b : PyDate) : Bool :=
  a.year < b.year ||
  (a.year = b.year && (a.month < b.month ||
    (a.month = b.month && a.day < b.day)))

/-- `date.strftime("%Y-%m-%d")` at the character level: zero-padded
4-digit year, 2-digit month and day, separated by `'-'`. -/
def formatDateL (d : PyDate) : List Char :=
  pad4 d.year ++ '-' :: (pad2 d.month ++ '-' :: pad2 d.day)

/-- `date.strftime("%Y-%m-%d")`. -/
def formatDate (d : PyDate) : String := String.mk (formatDateL d)

/-- `datetime.strptime(s, "%Y-%m-%d").date()` at the character level,
returning `none` where Python raises `ValueError`: CPython's `_strptime`
matches `%Y` against exactly four digits, `%m` and `%d` against one or two
digits, and the `datetime` constructor then validates the calendar date. -/
def parseDateL (l : List Char) : Option PyDate :=
  match splitDash l with
  | [ys, ms, ds] =>
    if ys.length = 4 && ys.all isDigitC &&
       (ms.length = 1 || ms.length = 2) && ms.all isDigitC &&
       (ds.length = 1 || ds.length = 2) && ds.all isDigitC then
      let y := parseNatL ys
      let m := parseNatL ms
      let d := parseNatL ds
      if 1 ≤ y ∧ 1 ≤ m ∧ m ≤ 12 ∧ 1 ≤ d ∧ d ≤ daysInMonth y m then
        some ⟨y, m, d⟩
      else none
    else none
  | _ => none

/-- `datetime.strptime(s, "%Y-%m-%d").date()`, `none` on `ValueError`. -/
def parseDate (s : String) : Option PyDate := parseDateL s.data

/-! ## Timestamps (`datetime.now()` and `strftime` patterns) -/

/-- A `datetime` value to second precision, used for backup-file names. -/
structure PyTimestamp where
  year : Nat
  month : Nat
  day : Nat
  hour : Nat
  minute : Nat
  second : Nat
deriving DecidableEq, Repr

/-- The invariant of a Python `datetime`. -/
def PyTimestamp.Valid (t : PyTimestamp) : Prop :=
  1 ≤ t.year ∧ t.year ≤ 9999 ∧ 1 ≤ t.month ∧ t.month ≤ 12 ∧
  1 ≤ t.day ∧ t.day ≤ 31 ∧ t.hour ≤ 23 ∧ t.minute ≤ 59 ∧ t.second ≤ 59

instance (t : PyTimestamp) : Decidable t.Valid := by
  unfold PyTimestamp.Valid; infer_instance

/-- `datetime.strftime("%Y%m%d_%H%M%S")`, the corrupt-backup suffix. -/
def formatTimestampL (t : PyTimestamp) : List Char :=
  pad4 t.year ++ pad2 t.month ++ pad2 t.day ++ '_' ::
    (pad2 t.hour ++ pad2 t.minute ++ pad2 t.second)

/-- `datetime.strftime("%Y%m%d_%H%M%S")` as a string. -/
def formatTimestamp (t : PyTimestamp) : String := String.mk (formatTimestampL t)

/-- Does a character list match the `YYYYMMDD_HHMMSS` backup-suffix
pattern: eight digits, an underscore, six digits? -/
def matchesTSPattern (l : List Char) : Bool :=
  decide (l.length = 15) && (l.take 8).all isDigitC &&
  decide (l.drop 8 ≠ [] ∧ (l.drop 8).head? = some '_') && (l.drop 9).all isDigitC

/-! ## Python `str.strip()` -/

/-- ASCII whitespace characters stripped by `str.strip()` (the Unicode
whitespace set restricted to ASCII, which covers all input this program
receives from its entry widgets). -/
def isPySpace (c : Char) : Bool :=
  c = ' ' || c = '\t' || c = '\n' || c = '\r' ||
  c = Char.ofNat 11 || c = Char.ofNat 12

/-- `str.strip()` on a character list. -/
def pyStripL (l : List Char) : List Char :=
  ((l.dropWhile isPySpace).reverse.dropWhile isPySpace).reverse

/-- Python `str.strip()`: remove leading and trailing whitespace. -/
def pyStrip (s : String) : String := String.mk (pyStripL s.data)

/-! ## The `Task` class and its dict projection (`task_manager.py`) -/

/-- A `Task` object (`task_manager.py`, class `Task`): `id` is `None`
until assigned, `deadline` is an optional `datetime.date`,
`created_date` is a preformatted `"%Y-%m-%d %H:%M"` string. -/
structure Task where
  id : Option Int
  title : String
  description : String
  deadline : Option PyDate
  completed : Bool
  created_date : String
deriving DecidableEq, Repr

/-- A Persisted Record: the dict produced by `Task.to_dict` and stored in
the JSON file.  All six keys are present (as `to_dict` always writes
them); `id` and `deadline` may be `null`. -/
structure Record where
  id : Option Int
  title : String
  description : String
  deadline : Option String
  completed : Bool
  created_date : String
deriving DecidableEq, Repr

/-- `Task.to_dict`: dict projection; the deadline is rendered with
`strftime("%Y-%m-%d")` when present, else `None`. -/
def Task.to_dict (t : Task) : Record :=
  { id := t.id
    title := t.title
    description := t.description
    deadline := t.deadline.map formatDate
    completed := t.completed
    created_date := t.created_date }

/-- `Task.from_dict`: rebuild a `Task` from a stored dict.  The
constructor leaves `deadline = None`; it is then set only when the stored
deadline string is truthy (non-`None` and non-empty) and parses, the
`except` clause mapping a `ValueError` to `None`. -/
def Task.from_dict (data : Record) : Task :=
  let task : Task :=
    { id := data.id
      title := data.title
      description := data.description
      deadline := none
      completed := data.completed
      created_date := data.created_date }
  match data.deadline with
  | none => task
  | some s => if s = "" then task else { task with deadline := parseDate s }

/-! ## `TaskManagerApp` collection operations

The application object holds the authoritative in-memory list
`self.tasks` and mirrors it to storage through `save_tasks` (which
serialises with `to_dict` and hands the records to `DataStorage`).  The
`AppState` below carries the list and the records last handed to the
store; GUI widgets are out of scope. -/

/-- In-memory application state: the task list and the record sequence
last passed to `DataStorage.save_tasks`. -/
structure AppState where
  tasks : List Task
  saved : List Record
deriving DecidableEq, Repr

/-- `TaskManagerApp.save_tasks`: serialise every task with `to_dict` and
hand the list to the store. -/
def appSave (tasks : List Task) : AppState :=
  { tasks := tasks, saved := tasks.map Task.to_dict }

/-- `TaskManagerApp.get_filtered_tasks`: the four views, keyed by the
combobox strings of the source; `today` stands for `date.today()`.  The
overdue test is Python's `not task.completed and task.deadline and
task.deadline < date.today()` (a `None` deadline is falsy). -/
def get_filtered_tasks (filterValue : String) (today : PyDate)
    (tasks : List Task) : List Task :=
  if filterValue = "Все" then tasks
  else if filterValue = "Активные" then
    tasks.filter (fun t => !t.completed)
  else if filterValue = "Выполненные" then
    tasks.filter (fun t => t.completed)
  else if filterValue = "Просроченные" then
    tasks.filter (fun t =>
      !t.completed && (match t.deadline with
        | some d => PyDate.ltb d today
        | none => false))
  else tasks

/-- `TaskDialog.save_task` validation combined with
`TaskManagerApp.add_task`: the dialog strips the entered title and
description; an empty stripped title aborts with an error and leaves
`dialog.result = None`, in which case `add_task` does nothing.  Otherwise
`add_task` builds a `Task`, assigns `id = len(self.tasks) + 1`, appends,
and persists.  The Boolean result reports whether a task was added
(`false` = validation failure). -/
def add_task (st : AppState) (title description : String)
    (deadline : Option PyDate) (now : String) : AppState × Bool :=
  let title' := pyStrip title
  if title' = "" then (st, false)
  else
    let task : Task :=
      { id := some ((st.tasks.length : Int) + 1)
        title := title'
        description := pyStrip description
        deadline := deadline
        completed := false
        created_date := now }
    (appSave (st.tasks ++ [task]), true)

/-- The in-place mutation of `TaskManagerApp.edit_task` on the task list:
`next(task for task in self.tasks if task.title == task_title)` finds the
first task whose title matches the selection, and its `title`,
`description` and `deadline` fields are overwritten. -/
def editFirst (sel newTitle newDesc : String) (newDl : Option PyDate) :
    List Task → List Task
  | [] => []
  | t :: ts =>
    if t.title = sel then
      { t with title := newTitle, description := newDesc, deadline := newDl } :: ts
    else t :: editFirst sel newTitle newDesc newDl ts

/-- `TaskManagerApp.edit_task` for a selection with title `sel`: if no
task matches or the dialog result is `None` (stripped new title empty),
nothing happens; otherwise the first matching task's `title`,
`description`, `deadline` are overwritten with the dialog's stripped
values and the collection is persisted. -/
def edit_task (st : AppState) (sel newTitle newDesc : String)
    (newDl : Option PyDate) : AppState :=
  if st.tasks.all (fun t => t.title ≠ sel) then st
  else if pyStrip newTitle = "" then st
  else appSave (editFirst sel (pyStrip newTitle) (pyStrip newDesc) newDl st.tasks)

/-- `TaskManagerApp.delete_task` for a selection with title `sel`:
`self.tasks = [task for task in self.tasks if task.title != task_title]`,
then persist. -/
def delete_task (st : AppState) (sel : String) : AppState :=
  appSave (st.tasks.filter (fun t => t.title ≠ sel))

/-! ## `DataStorage` and the file system (`data_storage.py`)

A file's content is what `json.load` sees: a JSON array of records, some
other successfully-parsed JSON value, or text that fails to parse.  The
file system is an association list from names to contents (first entry
wins); reads of present files succeed, and the fallible steps of
`save_tasks` (backup copy, write, restore) draw their outcomes from an
`IOOracle`.  Every Python `try/except` that swallows its exception is a
total function here — that totality is the "never raises" contract. -/

/-- Parse status of a file's bytes under `json.load`. -/
inductive JsonContent where
  /-- A JSON array of task records (`isinstance(data, list)`). -/
  | jlist (records : List Record)
  /-- Valid JSON that is not an array (object, number, string, …). -/
  | nonList (raw : String)
  /-- Text on which `json.load` raises `JSONDecodeError`. -/
  | invalid (raw : String)
deriving DecidableEq, Repr

/-- The file system: an association list of named file contents. -/
def FS := List (String × JsonContent)

instance : DecidableEq FS := by
  unfold FS; infer_instance

/-- Read a file (first matching entry). -/
def fsLookup (fs : FS) (name : String) : Option JsonContent :=
  match fs with
  | [] => none
  | (n, c) :: rest => if n = name then some c else fsLookup rest name

/-- Delete a file. -/
def fsRemove (fs : FS) (name : String) : FS :=
  List.filter (fun p => p.1 ≠ name) fs

/-- Create or overwrite a file. -/
def fsWrite (fs : FS) (name : String) (c : JsonContent) : FS :=
  (name, c) :: fsRemove fs name

/-- `os.rename old new` (overwrites `new` if present, no-op if `old`
is missing — the surrounding Python swallows that error). -/
def fsRename (fs : FS) (old new : String) : FS :=
  match fsLookup fs old with
  | none => fs
  | some c => fsWrite (fsRemove fs old) new c

namespace DataStorage

/-- `DataStorage.ensure_data_file`: create the file holding an empty
JSON array if it does not exist. -/
def ensure_data_file (fs : FS) (filename : String) : FS :=
  if (fsLookup fs filename).isSome then fs
  else fsWrite fs filename (.jlist [])

/-- `DataStorage.load_tasks`: missing file → recreate empty and return
`[]`; JSON array → return it; other valid JSON → return `[]` leaving the
file alone; `JSONDecodeError` → rename the corrupt file to
`<file>.backup_<YYYYMMDD_HHMMSS>` (timestamped from `now`), recreate an
empty file, return `[]`.  Total: no branch escapes with an exception. -/
def load_tasks (fs : FS) (filename : String) (now : PyTimestamp) :
    List Record × FS :=
  match fsLookup fs filename with
  | none => ([], ensure_data_file fs filename)
  | some (.jlist records) => (records, fs)
  | some (.nonList _) => ([], fs)
  | some (.invalid raw) =>
    let backupName := filename ++ ".backup_" ++ formatTimestamp now
    let fs1 := fsRename fs filename backupName
    let _ := raw
    ([], ensure_data_file fs1 filename)

/-- Outcomes of the fallible file operations inside
`DataStorage.save_tasks`: the `shutil.copy2` backup, the `json.dump`
write, and the `shutil.copy2` restore; `badContent` is whatever a failed
write attempt leaves in the target file. -/
structure IOOracle where
  copyOk : Bool
  writeOk : Bool
  restoreOk : Bool
  badContent : JsonContent
deriving DecidableEq, Repr

/-- `DataStorage.save_tasks`: if the target exists, best-effort copy it
to `<file>.bak` (failure ignored); write the full record list, replacing
the file; on write failure, leave whatever the failed write produced,
then best-effort restore the target from `<file>.bak` if that backup
exists; report success as a Boolean, never raise. -/
def save_tasks (fs : FS) (filename : String) (o : IOOracle)
    (records : List Record) : Bool × FS :=
  let bakName := filename ++ ".bak"
  let fs1 :=
    match fsLookup fs filename with
    | some c => if o.copyOk then fsWrite fs bakName c else fs
    | none => fs
  if o.writeOk then (true, fsWrite fs1 filename (.jlist records))
  else
    let fs2 := fsWrite fs1 filename o.badContent
    match fsLookup fs2 bakName with
    | some b => if o.restoreOk then (false, fsWrite fs2 filename b) else (false, fs2)
    | none => (false, fs2)

/-- The backup phase of `save_tasks` in isolation (the file system after
the best-effort `.bak` copy), used to state what the restore path reads. -/
def save_backup_phase (fs : FS) (filename : String) (o : IOOracle) : FS :=
  match fsLookup fs filename with
  | some c => if o.copyOk then fsWrite fs (filename ++ ".bak") c else fs
  | none => fs

end DataStorage

/-- Is a task's id (when assigned) at most `bound`?  `None` ids impose no
constraint.  Used to state the id-assignment property executably. -/
def idAtMost (t : Task) (bound : Int) : Bool :=
  match t.id with
  | none => true
  | some i => i ≤ bound

/-! ## Concrete values used by witnesses and counterexamples -/

/-- The task of the spec's worked scenario. -/
def buyMilk : Task :=
  { id := some 1, title := "Buy milk", description := ""
    deadline := some ⟨2020, 1, 1⟩, completed := false
    created_date := "2020-01-01 10:00" }

/-- A current date after the scenario deadline. -/
def june2020 : PyDate := ⟨2020, 6, 1⟩

/-- A fixed creation timestamp string for demo tasks. -/
def demoNow : String := "2024-03-15 14:30"

/-- The empty application state. -/
def appEmpty : AppState := { tasks := [], saved := [] }

/-- State after adding task "a". -/
def appA : AppState := (add_task appEmpty "a" "" none demoNow).1

/-- State after adding tasks "a", "b". -/
def appAB : AppState := (add_task appA "b" "" none demoNow).1

/-- State after adding tasks "a", "b", "c" (ids 1, 2, 3). -/
def appABC : AppState := (add_task appAB "c" "" none demoNow).1

/-- State after then deleting "b": ids present are 1 and 3. -/
def appAC : AppState := delete_task appABC "b"

/-- A demo task titled "dup" with id 1. -/
def dupTask1 : Task :=
  { id := some 1, title := "dup", description := "", deadline := none
    completed := false, created_date := demoNow }

/-- A second demo task also titled "dup", id 2. -/
def dupTask2 : Task :=
  { id := some 2, title := "dup", description := "first duplicate"
    deadline := none, completed := false, created_date := demoNow }

/-- A demo task titled "keep", id 3. -/
def keepTask : Task :=
  { id := some 3, title := "keep", description := "", deadline := none
    completed := true, created_date := demoNow }

/-- A collection holding two tasks with the same title and one other. -/
def appDup : AppState := { tasks := [dupTask1, dupTask2, keepTask], saved := [] }

/-- A demo wall-clock instant. -/
def nowTS : PyTimestamp := ⟨2024, 3, 15, 14, 30, 5⟩

/-- A store file holding corrupt (unparsable) text. -/
def fsBad : FS := [("tasks.json", .invalid "not json at all")]

/-- A store file holding valid JSON that is not an array. -/
def fsNum : FS := [("tasks.json", .nonList "42")]

/-- A store file holding one good record. -/
def fsGood : FS := [("tasks.json", .jlist [buyMilk.to_dict])]

/-- Oracle: every file operation succeeds. -/
def allOk : DataStorage.IOOracle :=
  { copyOk := true, writeOk := true, restoreOk := true
    badContent := .invalid "partial write" }

/-- Oracle: the write fails, backup and restore succeed. -/
def writeFails : DataStorage.IOOracle :=
  { copyOk := true, writeOk := false, restoreOk := true
    badContent := .invalid "partial write" }

/-! ## Digit lemmas -/

theorem digitVal_digitChar {r : Nat} (h : r < 10) : digitVal (digitChar r) = r := by
  interval_cases r <;> decide

theorem isDigitC_digitChar {r : Nat} (h : r < 10) : isDigitC (digitChar r) = true := by
  interval_cases r <;> decide

theorem natChars_lt (n : Nat) (h : n < 10) : natChars n = [digitChar n] := by
  rw [natChars]; simp [h]

theorem natChars_ge (n : Nat) (h : ¬ n < 10) :
    natChars n = natChars (n / 10) ++ [digitChar (n % 10)] := by
  rw [natChars]; simp [h]

theorem natChars_ne_nil (n : Nat) : natChars n ≠ [] := by
  by_cases h : n < 10
  · rw [natChars_lt n h]; simp
  · rw [natChars_ge n h]; simp

theorem natChars_all_digits (n : Nat) : ∀ c ∈ natChars n, isDigitC c = true := by
  induction n using Nat.strong_induction_on with
  | _ n ih =>
    by_cases h : n < 10
    · rw [natChars_lt n h]
      intro c hc
      simp only [List.mem_singleton] at hc
      subst hc
      exact isDigitC_digitChar h
    · rw [natChars_ge n h]
      intro c hc
      rcases List.mem_append.mp hc with h1 | h2
      · exact ih (n / 10) (Nat.div_lt_self (by omega) (by omega)) c h1
      · simp only [List.mem_singleton] at h2
        subst h2
        exact isDigitC_digitChar (Nat.mod_lt _ (by omega))

theorem isDigitC_ne_dash {c : Char} (h : isDigitC c = true) : c ≠ '-' := by
  intro he
  subst he
  simp [isDigitC] at h

theorem parseNatAux_append (l1 l2 : List Char) (acc : Nat) :
    parseNatAux (l1 ++ l2) acc = parseNatAux l2 (parseNatAux l1 acc) := by
  induction l1 generalizing acc with
  | nil => rfl
  | cons c cs ih => simp [parseNatAux, ih]

theorem parseNatAux_natChars (n : Nat) :
    ∀ acc, parseNatAux (natChars n) acc = acc * 10 ^ (natChars n).length + n := by
  induction n using Nat.strong_induction_on with
  | _ n ih =>
    intro acc
    by_cases h : n < 10
    · rw [natChars_lt n h]
      simp [parseNatAux, digitVal_digitChar h]
    · rw [natChars_ge n h]
      rw [parseNatAux_append]
      rw [ih (n / 10) (Nat.div_lt_self (by omega) (by omega)) acc]
      simp only [parseNatAux, digitVal_digitChar (Nat.mod_lt n (by omega : 0 < 10)),
        List.length_append, List.length_singleton]
      rw [pow_succ]
      have : n = 10 * (n / 10) + n % 10 := (Nat.div_add_mod n 10).symm
      ring_nf
      omega

theorem parseNatAux_replicate_zero (j : Nat) :
    parseNatAux (List.replicate j '0') 0 = 0 := by
  induction j with
  | zero => rfl
  | succ k ih => simpa [List.replicate_succ, parseNatAux, digitVal] using ih

theorem parseNatL_padTo (k : Nat) (n : Nat) : parseNatL (padTo k (natChars n)) = n := by
  unfold parseNatL padTo
  rw [parseNatAux_append, parseNatAux_replicate_zero, parseNatAux_natChars]
  simp

theorem natChars_length_le (n k : Nat) (hk : 1 ≤ k) (h : n < 10 ^ k) :
    (natChars n).length ≤ k := by
  induction n using Nat.strong_induction_on generalizing k with
  | _ n ih =>
    by_cases hn : n < 10
    · rw [natChars_lt n hn]; simpa using hk
    · rw [natChars_ge n hn]
      simp only [List.length_append, List.length_singleton]
      have hk2 : 2 ≤ k := by
        by_contra hlt
        have : k = 1 := by omega
        subst this
        simp at h
        omega
      have hdiv : n / 10 < 10 ^ (k - 1) := by
        have : n < 10 * 10 ^ (k - 1) := by
          have : 10 * 10 ^ (k - 1) = 10 ^ k := by
            rw [← pow_succ']
            congr 1
            omega
          omega
        omega
      have := ih (n / 10) (Nat.div_lt_self (by omega) (by omega)) (k - 1) (by omega) hdiv
      omega

theorem padTo_length (k : Nat) (l : List Char) (h : l.length ≤ k) :
    (padTo k l).length = k := by
  simp [padTo]
  omega

theorem pad4_length (n : Nat) (h : n ≤ 9999) : (pad4 n).length = 4 := by
  apply padTo_length
  exact natChars_length_le n 4 (by omega) (by omega)

theorem pad2_length (n : Nat) (h : n ≤ 99) : (pad2 n).length = 2 := by
  apply padTo_length
  exact natChars_length_le n 2 (by omega) (by omega)

theorem padTo_all_digits (k : Nat) (n : Nat) :
    ∀ c ∈ padTo k (natChars n), isDigitC c = true := by
  intro c hc
  rcases List.mem_append.mp hc with h1 | h2
  · have := List.eq_of_mem_replicate h1
    subst this
    decide
  · exact natChars_all_digits n c h2

theorem parseNatL_pad4 (n : Nat) : parseNatL (pad4 n) = n := parseNatL_padTo 4 n

theorem parseNatL_pad2 (n : Nat) : parseNatL (pad2 n) = n := parseNatL_padTo 2 n

/-! ## splitDash lemmas -/

theorem splitDash_ne_nil (l : List Char) : splitDash l ≠ [] := by
  induction l with
  | nil => simp [splitDash]
  | cons c cs ih =>
    simp only [splitDash]
    split
    · simp
    · split
      · simp
      · simp

theorem splitDash_nodash_append (a l : List Char) (ha : ∀ c ∈ a, c ≠ '-')
    (t : List Char) (ts : List (List Char)) (hl : splitDash l = t :: ts) :
    splitDash (a ++ l) = (a ++ t) :: ts := by
  induction a with
  | nil => simpa using hl
  | cons c cs ih =>
    have hc : c ≠ '-' := ha c (by simp)
    have hcs : ∀ x ∈ cs, x ≠ '-' := fun x hx => ha x (by simp [hx])
    have hrec : splitDash (cs ++ l) = (cs ++ t) :: ts := ih hcs
    simp only [List.cons_append, splitDash, if_neg hc]
    rw [show splitDash (cs.append l) = (cs ++ t) :: ts from hrec]

theorem splitDash_three (a b c : List Char)
    (ha : ∀ x ∈ a, x ≠ '-') (hb : ∀ x ∈ b, x ≠ '-') (hc : ∀ x ∈ c, x ≠ '-') :
    splitDash (a ++ '-' :: (b ++ '-' :: c)) = [a, b, c] := by
  have h1 : splitDash c = [c] := by
    have := splitDash_nodash_append c [] hc [] [] rfl
    simpa using this
  have h2 : splitDash ('-' :: c) = [[], c] := by
    simp [splitDash, h1]
  have h3 : splitDash (b ++ '-' :: c) = [b, c] := by
    have := splitDash_nodash_append b ('-' :: c) hb [] [c] h2
    simpa using this
  have h4 : splitDash ('-' :: (b ++ '-' :: c)) = [[], b, c] := by
    simp [splitDash, h3]
  have := splitDash_nodash_append a ('-' :: (b ++ '-' :: c)) ha [] [b, c] h4
  simpa using this

/-! ## Date format/parse roundtrip -/

theorem parseDateL_formatDateL (d : PyDate) (h : d.Valid) :
    parseDateL (formatDateL d) = some d := by
  obtain ⟨hy1, hy2, hm1, hm2, hd1, hd2⟩ := h
  have hdm : d.day ≤ 31 := by
    have : daysInMonth d.year d.month ≤ 31 := by
      unfold daysInMonth
      split
      · split <;> omega
      · split <;> omega
    omega
  have hya : ∀ x ∈ pad4 d.year, x ≠ '-' :=
    fun x hx => isDigitC_ne_dash (padTo_all_digits 4 d.year x hx)
  have hma : ∀ x ∈ pad2 d.month, x ≠ '-' :=
    fun x hx => isDigitC_ne_dash (padTo_all_digits 2 d.month x hx)
  have hda : ∀ x ∈ pad2 d.day, x ≠ '-' :=
    fun x hx => isDigitC_ne_dash (padTo_all_digits 2 d.day x hx)
  unfold parseDateL formatDateL
  rw [splitDash_three _ _ _ hya hma hda]
  have hylen : (pad4 d.year).length = 4 := pad4_length d.year hy2
  have hmlen : (pad2 d.month).length = 2 := pad2_length d.month (by omega)
  have hdlen : (pad2 d.day).length = 2 := pad2_length d.day (by omega)
  have hyd : (pad4 d.year).all isDigitC = true :=
    List.all_eq_true.mpr (padTo_all_digits 4 d.year)
  have hmd : (pad2 d.month).all isDigitC = true :=
    List.all_eq_true.mpr (padTo_all_digits 2 d.month)
  have hdd : (pad2 d.day).all isDigitC = true :=
    List.all_eq_true.mpr (padTo_all_digits 2 d.day)
  simp only [hylen, hmlen, hdlen, hyd, hmd, hdd, parseNatL_pad4, parseNatL_pad2]
  have hcond : 1 ≤ d.year ∧ 1 ≤ d.month ∧ d.month ≤ 12 ∧ 1 ≤ d.day ∧
      d.day ≤ daysInMonth d.year d.month := ⟨hy1, hm1, hm2, hd1, hd2⟩
  simp [hcond]

theorem parseDate_formatDate (d : PyDate) (h : d.Valid) :
    parseDate (formatDate d) = some d := by
  unfold parseDate formatDate
  exact parseDateL_formatDateL d h

theorem matchesTSPattern_formatTimestampL (t : PyTimestamp) (h : t.Valid) :
    matchesTSPattern (formatTimestampL t) = true := by
  obtain ⟨h1, h2, h3, h4, h5, h6, h7, h8, h9⟩ := h
  have hy : (pad4 t.year).length = 4 := pad4_length t.year h2
  have hmo : (pad2 t.month).length = 2 := pad2_length t.month (by omega)
  have hd : (pad2 t.day).length = 2 := pad2_length t.day (by omega)
  have hh : (pad2 t.hour).length = 2 := pad2_length t.hour (by omega)
  have hmi : (pad2 t.minute).length = 2 := pad2_length t.minute (by omega)
  have hs : (pad2 t.second).length = 2 := pad2_length t.second (by omega)
  unfold formatTimestampL
  unfold matchesTSPattern
  have hflen : (pad4 t.year ++ pad2 t.month ++ pad2 t.day).length = 8 := by
    simp [hy, hmo, hd]
  have hblen : (pad2 t.hour ++ pad2 t.minute ++ pad2 t.second).length = 6 := by
    simp [hh, hmi, hs]
  have htake : ((pad4 t.year ++ pad2 t.month ++ pad2 t.day) ++ '_' ::
      (pad2 t.hour ++ pad2 t.minute ++ pad2 t.second)).take 8 =
      pad4 t.year ++ pad2 t.month ++ pad2 t.day := by
    rw [List.take_append_of_le_length (by omega)]
    exact List.take_of_length_le (by omega)
  have hdrop : ((pad4 t.year ++ pad2 t.month ++ pad2 t.day) ++ '_' ::
      (pad2 t.hour ++ pad2 t.minute ++ pad2 t.second)).drop 8 =
      '_' :: (pad2 t.hour ++ pad2 t.minute ++ pad2 t.second) := by
    rw [List.drop_append_of_le_length (by omega)]
    rw [show (8 : Nat) = (pad4 t.year ++ pad2 t.month ++ pad2 t.day).length from hflen.symm]
    simp
  have hdrop9 : ((pad4 t.year ++ pad2 t.month ++ pad2 t.day) ++ '_' ::
      (pad2 t.hour ++ pad2 t.minute ++ pad2 t.second)).drop 9 =
      pad2 t.hour ++ pad2 t.minute ++ pad2 t.second := by
    rw [show (9 : Nat) = 8 + 1 from rfl, ← List.drop_drop, hdrop]
    simp
  rw [show (pad4 t.year ++ pad2 t.month ++ pad2 t.day ++ '_' ::
      (pad2 t.hour ++ pad2 t.minute ++ pad2 t.second)) =
      ((pad4 t.year ++ pad2 t.month ++ pad2 t.day) ++ '_' ::
      (pad2 t.hour ++ pad2 t.minute ++ pad2 t.second)) by simp]
  rw [htake, hdrop, hdrop9]
  simp only [Bool.and_eq_true, decide_eq_true_eq]
  refine ⟨⟨⟨?_, ?_⟩, ?_⟩, ?_⟩
  · simp only [List.length_append, List.length_cons, hy, hmo, hd, hh, hmi, hs]
  · apply List.all_eq_true.mpr
    intro c hcm
    rcases List.mem_append.mp hcm with hcm1 | hcm2
    · rcases List.mem_append.mp hcm1 with hcm3 | hcm4
      · exact padTo_all_digits 4 t.year c hcm3
      · exact padTo_all_digits 2 t.month c hcm4
    · exact padTo_all_digits 2 t.day c hcm2
  · exact ⟨by simp, rfl⟩
  · apply List.all_eq_true.mpr
    intro c hcm
    rcases List.mem_append.mp hcm with hcm1 | hcm2
    · rcases List.mem_append.mp hcm1 with hcm3 | hcm4
      · exact padTo_all_digits 2 t.hour c hcm3
      · exact padTo_all_digits 2 t.minute c hcm4
    · exact padTo_all_digits 2 t.second c hcm2

/-! ## File-system lemmas -/

theorem fsLookup_fsRemove_ne (fs : FS) (n m : String) (h : m ≠ n) :
    fsLookup (fsRemove fs n) m = fsLookup fs m := by
  induction fs with
  | nil => rfl
  | cons p rest ih =>
    obtain ⟨pn, pc⟩ := p
    by_cases hp : pn = n
    · subst hp
      have h1 : fsRemove ((pn, pc) :: rest) pn = fsRemove rest pn := by
        simp [fsRemove, List.filter_cons]
      rw [h1, ih]
      simp only [fsLookup]
      rw [if_neg (fun he => h he.symm)]
    · have h1 : fsRemove ((pn, pc) :: rest) n = (pn, pc) :: fsRemove rest n := by
        simp [fsRemove, List.filter_cons, hp]
      rw [h1]
      simp only [fsLookup]
      split
      · rfl
      · exact ih

theorem fsLookup_fsRemove_self (fs : FS) (n : String) :
    fsLookup (fsRemove fs n) n = none := by
  induction fs with
  | nil => rfl
  | cons p rest ih =>
    obtain ⟨pn, pc⟩ := p
    by_cases hp : pn = n
    · subst hp
      have h1 : fsRemove ((pn, pc) :: rest) pn = fsRemove rest pn := by
        simp [fsRemove, List.filter_cons]
      rw [h1, ih]
    · have h1 : fsRemove ((pn, pc) :: rest) n = (pn, pc) :: fsRemove rest n := by
        simp [fsRemove, List.filter_cons, hp]
      rw [h1]
      simp only [fsLookup]
      rw [if_neg hp]
      exact ih

theorem fsLookup_fsWrite_self (fs : FS) (n : String) (c : JsonContent) :
    fsLookup (fsWrite fs n c) n = some c := by
  simp [fsWrite, fsLookup]

theorem fsLookup_fsWrite_ne (fs : FS) (n m : String) (c : JsonContent)
    (h : m ≠ n) : fsLookup (fsWrite fs n c) m = fsLookup fs m := by
  simp only [fsWrite, fsLookup]
  rw [if_neg (fun he => h he.symm)]
  exact fsLookup_fsRemove_ne fs n m h

theorem str_append_ne_self (s t : String) (h : 0 < t.length) : s ++ t ≠ s := by
  intro he
  have hl := congrArg String.length he
  rw [String.length_append] at hl
  omega

theorem bak_ne_self (s : String) : s ++ ".bak" ≠ s :=
  str_append_ne_self s ".bak" (by decide)

theorem backup_name_ne_self (s x : String) :
    s ++ ".backup_" ++ x ≠ s := by
  rw [String.append_assoc]
  apply str_append_ne_self
  rw [String.length_append]
  have : (".backup_" : String).length = 8 := by decide
  omega

/-! ## View-reduction helpers -/

theorem filtered_active (today : PyDate) (tasks : List Task) :
    get_filtered_tasks "Активные" today tasks =
      tasks.filter (fun t => !t.completed) := rfl

theorem filtered_overdue (today : PyDate) (tasks : List Task) :
    get_filtered_tasks "Просроченные" today tasks =
      tasks.filter (fun t =>
        !t.completed && (match t.deadline with
          | some d => PyDate.ltb d today
          | none => false)) := rfl

/-! ## Claim theorems -/

/-- Claim C8: a task with `completed == true` appears in neither the
active view nor the overdue view of `get_filtered_tasks`, whatever its
deadline and whatever the current date. -/
theorem completed_excluded_from_views (tasks : List Task) (today : PyDate)
    (t : Task) (hc : t.completed = true) :
    t ∉ get_filtered_tasks "Активные" today tasks ∧
    t ∉ get_filtered_tasks "Просроченные" today tasks := by
  constructor
  · rw [filtered_active]
    intro hmem
    have := (List.mem_filter.mp hmem).2
    simp [hc] at this
  · rw [filtered_overdue]
    intro hmem
    have := (List.mem_filter.mp hmem).2
    simp [hc] at this

/-- Witness for C8: the completed demo task is in neither view even
though the current date is past any deadline. -/
theorem completed_excluded_from_views_witness :
    keepTask.completed = true ∧
    (keepTask ∉ get_filtered_tasks "Активные" june2020 [dupTask1, keepTask] ∧
     keepTask ∉ get_filtered_tasks "Просроченные" june2020 [dupTask1, keepTask]) :=
  ⟨by decide, completed_excluded_from_views [dupTask1, keepTask] june2020 keepTask (by decide)⟩

/-- Counterexample to claim C2 as stated: the spec's own scenario task
(`completed == false`, deadline 2020-01-01, current date 2020-06-01)
does appear in the result of the active view — `get_filtered_tasks`
filters the active view on `not task.completed` only, ignoring the
deadline — so "is not in the result of filtered(active)" is false. -/
theorem overdue_task_in_active_cex :
    buyMilk.completed = false ∧
    buyMilk.deadline = some ⟨2020, 1, 1⟩ ∧
    PyDate.ltb ⟨2020, 1, 1⟩ june2020 = true ∧
    buyMilk ∈ get_filtered_tasks "Активные" june2020 [buyMilk] := by
  decide

/-- Claim C2 (amended): a task with `completed == false` and a set
deadline strictly earlier than the current date is in the overdue view
and also in the active view (the active view contains every
not-completed task regardless of deadline). -/
theorem overdue_task_in_both_views (tasks : List Task) (today : PyDate)
    (t : Task) (d : PyDate) (ht : t ∈ tasks) (hc : t.completed = false)
    (hd : t.deadline = some d) (hlt : PyDate.ltb d today = true) :
    t ∈ get_filtered_tasks "Просроченные" today tasks ∧
    t ∈ get_filtered_tasks "Активные" today tasks := by
  constructor
  · rw [filtered_overdue]
    refine List.mem_filter.mpr ⟨ht, ?_⟩
    simp [hc, hd, hlt]
  · rw [filtered_active]
    exact List.mem_filter.mpr ⟨ht, by simp [hc]⟩

/-- Witness for C2 (amended): the scenario task is in both views. -/
theorem overdue_task_in_both_views_witness :
    buyMilk ∈ get_filtered_tasks "Просроченные" june2020 [buyMilk] ∧
    buyMilk ∈ get_filtered_tasks "Активные" june2020 [buyMilk] :=
  overdue_task_in_both_views [buyMilk] june2020 buyMilk ⟨2020, 1, 1⟩
    (by decide) (by decide) (by decide) (by decide)

/-- Claim C10: when the stored file parses as JSON but is not an array,
`load_tasks` returns the empty record list and leaves the entire file
system untouched: no rename, no backup file, the non-array content stays
in place. -/
theorem load_tasks_nonlist_spec (fs : FS) (filename : String)
    (now : PyTimestamp) (raw : String)
    (h : fsLookup fs filename = some (.nonList raw)) :
    DataStorage.load_tasks fs filename now = ([], fs) := by
  unfold DataStorage.load_tasks
  rw [h]

/-- Witness for C10: a file holding the JSON number 42 is ignored and
left exactly in place. -/
theorem load_tasks_nonlist_spec_witness :
    DataStorage.load_tasks fsNum "tasks.json" nowTS = ([], fsNum) :=
  load_tasks_nonlist_spec fsNum "tasks.json" nowTS "42" (by decide)

/-- Claim C5: `add_task` with a title that is empty after stripping
whitespace reports a validation failure and returns the state unchanged:
no task appended and nothing handed to the store. -/
theorem add_task_blank_title (st : AppState) (title description : String)
    (deadline : Option PyDate) (now : String) (h : pyStrip title = "") :
    add_task st title description deadline now = (st, false) := by
  unfold add_task
  simp [h]

/-- Witness for C5: adding with a whitespace-only title leaves the
three-task demo state untouched and reports failure. -/
theorem add_task_blank_title_witness :
    pyStrip "   " = "" ∧ add_task appDup "   " "desc" none demoNow = (appDup, false) :=
  ⟨by decide, add_task_blank_title appDup "   " "desc" none demoNow (by decide)⟩

/-- Claim C4: deleting for a selected title removes every task whose
title equals it (both of two duplicates included), keeps all tasks with a
different title — each at most once removed, counts preserved — in their
original relative order, and persists the resulting collection. -/
theorem delete_task_by_title_spec (st : AppState) (sel : String) :
    (∀ t ∈ (delete_task st sel).tasks, t.title ≠ sel) ∧
    (delete_task st sel).tasks.Sublist st.tasks ∧
    (∀ t ∈ st.tasks, t.title ≠ sel → t ∈ (delete_task st sel).tasks) ∧
    (∀ t : Task, (delete_task st sel).tasks.count t =
      if t.title = sel then 0 else st.tasks.count t) ∧
    (delete_task st sel).saved = (delete_task st sel).tasks.map Task.to_dict := by
  refine ⟨?_, ?_, ?_, ?_, rfl⟩
  · intro t ht
    have := (List.mem_filter.mp ht).2
    simpa using this
  · exact List.filter_sublist _
  · intro t ht hne
    exact List.mem_filter.mpr ⟨ht, by simpa using hne⟩
  · intro t
    by_cases hts : t.title = sel
    · rw [if_pos hts]
      apply List.count_eq_zero.mpr
      intro hmem
      exact absurd hts (by simpa using (List.mem_filter.mp hmem).2)
    · rw [if_neg hts]
      exact List.count_filter (by simpa using hts)

/-- Witness for C4: deleting title "dup" from a collection holding two
tasks titled "dup" removes both and keeps the "keep" task. -/
theorem delete_task_by_title_spec_witness :
    (∀ t ∈ (delete_task appDup "dup").tasks, t.title ≠ "dup") ∧
    keepTask ∈ (delete_task appDup "dup").tasks ∧
    (delete_task appDup "dup").tasks.count dupTask1 = 0 :=
  ⟨(delete_task_by_title_spec appDup "dup").1,
   (delete_task_by_title_spec appDup "dup").2.2.1 keepTask (by decide) (by decide),
   by
    have := (delete_task_by_title_spec appDup "dup").2.2.2.1 dupTask1
    simpa using this⟩

/-- Counterexample to claim C1 as stated: starting from the reachable
state with tasks "a" (id 1) and "c" (id 3) — built by adding "a", "b",
"c" and deleting "b" — `add_task` assigns the new task
`id = len(tasks) + 1 = 3`, which is not strictly greater than the id 3
already present in the collection. -/
theorem add_task_id_not_above_max_cex :
    ((add_task appAC "d" "" none demoNow).1.tasks.map Task.id).getLast? =
      some (some 3) ∧
    ¬ (∀ t ∈ appAC.tasks, ∀ i : Int, t.id = some i → i < 3) := by
  constructor
  · decide
  · intro hall
    have h3 : ∃ t ∈ appAC.tasks, t.id = some 3 := by decide
    obtain ⟨t, ht, hid⟩ := h3
    have := hall t ht 3 hid
    omega

/-- Claim C1 (amended): for a non-blank title, `add_task` assigns the new
task `id = collection length + 1` and appends it; whenever every id
already present is at most the collection length (as holds when ids are
the unbroken sequence 1..n), this new id is strictly greater than every
id present.  After deletions the premise can fail and the new id can
collide with an existing one. -/
theorem add_task_id_assignment (st : AppState) (title description : String)
    (deadline : Option PyDate) (now : String)
    (hne : pyStrip title ≠ "")
    (hbound : ∀ t ∈ st.tasks, idAtMost t (st.tasks.length : Int) = true) :
    (add_task st title description deadline now).2 = true ∧
    (∃ tNew, (add_task st title description deadline now).1.tasks =
        st.tasks ++ [tNew] ∧
      tNew.id = some ((st.tasks.length : Int) + 1)) ∧
    ∀ t ∈ st.tasks, ∀ i : Int, t.id = some i → i < (st.tasks.length : Int) + 1 := by
  have hres : add_task st title description deadline now =
      (appSave (st.tasks ++
        [{ id := some ((st.tasks.length : Int) + 1), title := pyStrip title,
           description := pyStrip description, deadline := deadline,
           completed := false, created_date := now }]), true) := by
    unfold add_task
    simp [hne]
  rw [hres]
  refine ⟨rfl, ⟨_, rfl, rfl⟩, ?_⟩
  intro t ht i hi
  have hb := hbound t ht
  unfold idAtMost at hb
  rw [hi] at hb
  simp at hb
  omega

/-- Witness for C1 (amended): adding "c" to the two-task state with ids
1 and 2 assigns id 3, strictly above both. -/
theorem add_task_id_assignment_witness :
    (add_task appAB "c" "" none demoNow).2 = true ∧
    (∃ tNew, (add_task appAB "c" "" none demoNow).1.tasks =
        appAB.tasks ++ [tNew] ∧
      tNew.id = some ((appAB.tasks.length : Int) + 1)) ∧
    ∀ t ∈ appAB.tasks, ∀ i : Int, t.id = some i →
      i < (appAB.tasks.length : Int) + 1 :=
  add_task_id_assignment appAB "c" "" none demoNow (by decide) (by decide)

/-- Positional frame lemma for `editFirst`: at the first index whose
task's title matches the selection, the task's `title`, `description`
and `deadline` are replaced (all other fields kept); every other index
is untouched. -/
theorem editFirst_spec (sel nt nd : String) (ndl : Option PyDate) :
    ∀ (ts : List Task) (i : Nat) (t : Task),
      ts.get? i = some t → t.title = sel →
      (∀ j, j < i → ∀ u, ts.get? j = some u → u.title ≠ sel) →
      (editFirst sel nt nd ndl ts).get? i =
        some { t with title := nt, description := nd, deadline := ndl } ∧
      (∀ j, j ≠ i → (editFirst sel nt nd ndl ts).get? j = ts.get? j) := by
  intro ts
  induction ts with
  | nil => intro i t hi; simp at hi
  | cons h0 tl ih =>
    intro i t hi hsel hfirst
    cases i with
    | zero =>
      have ht : h0 = t := by simpa using hi
      subst ht
      simp only [editFirst, if_pos hsel]
      constructor
      · rfl
      · intro j hj
        cases j with
        | zero => exact absurd rfl hj
        | succ k => rfl
    | succ k =>
      have hhd : h0.title ≠ sel := hfirst 0 (Nat.succ_pos k) h0 rfl
      simp only [editFirst, if_neg hhd]
      have htl := ih k t (by simpa using hi) hsel
        (fun j hj u hu => hfirst (j + 1) (by omega) u (by simpa using hu))
      constructor
      · simpa using htl.1
      · intro j hj
        cases j with
        | zero => rfl
        | succ m =>
          have := htl.2 m (by omega)
          simpa using this

/-- Claim C9: editing the (first) task whose title matches the selection
with a non-blank new title overwrites exactly its `title`, `description`
and `deadline`; its `id`, `created_date` (and `completed`) are
unchanged, every other task in the collection is unchanged, and the
result is persisted. -/
theorem edit_task_frame_spec (st : AppState) (sel newTitle newDesc : String)
    (newDl : Option PyDate) (i : Nat) (t : Task)
    (hi : st.tasks.get? i = some t) (hsel : t.title = sel)
    (hfirst : ∀ j, j < i →
      Option.all (fun u => u.title ≠ sel) (st.tasks.get? j) = true)
    (hval : pyStrip newTitle ≠ "") :
    ∃ t', (edit_task st sel newTitle newDesc newDl).tasks.get? i = some t' ∧
      t'.id = t.id ∧ t'.created_date = t.created_date ∧
      t'.completed = t.completed ∧
      t'.title = pyStrip newTitle ∧ t'.description = pyStrip newDesc ∧
      t'.deadline = newDl ∧
      (∀ j, j ≠ i →
        (edit_task st sel newTitle newDesc newDl).tasks.get? j =
          st.tasks.get? j) ∧
      (edit_task st sel newTitle newDesc newDl).saved =
        (edit_task st sel newTitle newDesc newDl).tasks.map Task.to_dict := by
  have hmem : t ∈ st.tasks := List.get?_mem hi
  have hall : ¬ (st.tasks.all (fun u => u.title ≠ sel) = true) := by
    intro hA
    have := List.all_eq_true.mp hA t hmem
    simp [hsel] at this
  have hfirst' : ∀ j, j < i → ∀ u, st.tasks.get? j = some u → u.title ≠ sel := by
    intro j hj u hu
    have := hfirst j hj
    rw [hu] at this
    simpa using this
  have hres : edit_task st sel newTitle newDesc newDl =
      appSave (editFirst sel (pyStrip newTitle) (pyStrip newDesc) newDl st.tasks) := by
    unfold edit_task
    rw [if_neg hall, if_neg hval]
  have hef := editFirst_spec sel (pyStrip newTitle) (pyStrip newDesc) newDl
    st.tasks i t hi hsel hfirst'
  rw [hres]
  exact ⟨_, hef.1, rfl, rfl, rfl, rfl, rfl, rfl, hef.2, rfl⟩

/-- Witness for C9: editing the task titled "keep" (index 2 of the demo
collection) changes its three fields, keeps id 3 and its creation date,
and leaves the two "dup" tasks alone. -/
theorem edit_task_frame_spec_witness :
    ∃ t', (edit_task appDup "keep" " new title " "d2" (some ⟨2024, 5, 1⟩)).tasks.get? 2 =
        some t' ∧
      t'.id = keepTask.id ∧ t'.created_date = keepTask.created_date ∧
      t'.completed = keepTask.completed ∧
      t'.title = pyStrip " new title " ∧ t'.description = pyStrip "d2" ∧
      t'.deadline = some ⟨2024, 5, 1⟩ ∧
      (∀ j, j ≠ 2 →
        (edit_task appDup "keep" " new title " "d2" (some ⟨2024, 5, 1⟩)).tasks.get? j =
          appDup.tasks.get? j) ∧
      (edit_task appDup "keep" " new title " "d2" (some ⟨2024, 5, 1⟩)).saved =
        (edit_task appDup "keep" " new title " "d2" (some ⟨2024, 5, 1⟩)).tasks.map
          Task.to_dict :=
  edit_task_frame_spec appDup "keep" " new title " "d2" (some ⟨2024, 5, 1⟩) 2 keepTask
    (by decide) (by decide) (by decide) (by decide)

/-- Per-task serialisation roundtrip: `from_dict (to_dict t) = t` for a
task whose deadline (when present) is a valid calendar date — which every
Python `date` object is by construction. -/
theorem from_dict_to_dict (t : Task)
    (hv : ∀ d, t.deadline = some d → d.Valid) :
    Task.from_dict (Task.to_dict t) = t := by
  obtain ⟨tid, ttitle, tdesc, tdl, tcomp, tcd⟩ := t
  cases tdl with
  | none => rfl
  | some d =>
    have hd : d.Valid := hv d rfl
    have hne : formatDate d ≠ "" := by
      intro he
      have hdata := congrArg String.data he
      simp [formatDate, formatDateL] at hdata
    simp only [Task.to_dict, Task.from_dict, Option.map_some']
    rw [if_neg hne, parseDate_formatDate d hd]

/-- Claim C3: serialising every task with `to_dict` and rebuilding each
record with `from_dict` reproduces the collection exactly — titles,
descriptions, deadlines and completed flags are equal, and `id` and
`created_date` are preserved verbatim.  The hypothesis records Python's
`date`-type invariant that every stored deadline is a valid calendar
date. -/
theorem to_dict_from_dict_roundtrip (ts : List Task)
    (hv : ∀ t ∈ ts, Option.all (fun d => decide d.Valid) t.deadline = true) :
    (ts.map Task.to_dict).map Task.from_dict = ts := by
  induction ts with
  | nil => rfl
  | cons h0 tl ih =>
    have hv0 : ∀ d, h0.deadline = some d → d.Valid := by
      intro d hd
      have := hv h0 (by simp)
      rw [hd] at this
      simpa using this
    simp only [List.map_cons, List.cons.injEq]
    exact ⟨from_dict_to_dict h0 hv0, ih (fun t ht => hv t (by simp [ht]))⟩

/-- Witness for C3: the scenario task (with deadline) and a deadline-less
task both survive the save/load projection unchanged. -/
theorem to_dict_from_dict_roundtrip_witness :
    ([buyMilk, dupTask1].map Task.to_dict).map Task.from_dict =
      [buyMilk, dupTask1] :=
  to_dict_from_dict_roundtrip [buyMilk, dupTask1] (by decide)

/-- Claim C6: loading a file whose content fails to parse (1) renames it
to `<file>.backup_<timestamp>` where the timestamp suffix matches
`YYYYMMDD_HHMMSS` (given a well-formed clock), (2) recreates the file
holding an empty array and returns the empty collection, and (3) —
modelled by `load_tasks` being a total function — lets no exception
escape. -/
theorem load_tasks_corrupt_spec (fs : FS) (filename : String)
    (now : PyTimestamp) (raw : String)
    (h : fsLookup fs filename = some (.invalid raw)) :
    (DataStorage.load_tasks fs filename now).1 = [] ∧
    fsLookup (DataStorage.load_tasks fs filename now).2
        (filename ++ ".backup_" ++ formatTimestamp now) =
      some (.invalid raw) ∧
    fsLookup (DataStorage.load_tasks fs filename now).2 filename =
      some (.jlist []) ∧
    (now.Valid → matchesTSPattern (formatTimestamp now).data = true) := by
  have hbne : filename ++ ".backup_" ++ formatTimestamp now ≠ filename :=
    backup_name_ne_self filename (formatTimestamp now)
  have hres : DataStorage.load_tasks fs filename now =
      ([], DataStorage.ensure_data_file
        (fsRename fs filename (filename ++ ".backup_" ++ formatTimestamp now))
        filename) := by
    unfold DataStorage.load_tasks
    rw [h]
  have hren : fsRename fs filename
      (filename ++ ".backup_" ++ formatTimestamp now) =
      fsWrite (fsRemove fs filename)
        (filename ++ ".backup_" ++ formatTimestamp now) (.invalid raw) := by
    unfold fsRename
    rw [h]
  have h1 : fsLookup (fsWrite (fsRemove fs filename)
      (filename ++ ".backup_" ++ formatTimestamp now) (.invalid raw))
      filename = none := by
    rw [fsLookup_fsWrite_ne _ _ _ _ (fun he => hbne he.symm)]
    exact fsLookup_fsRemove_self fs filename
  have hens : DataStorage.ensure_data_file
      (fsWrite (fsRemove fs filename)
        (filename ++ ".backup_" ++ formatTimestamp now) (.invalid raw))
      filename =
      fsWrite (fsWrite (fsRemove fs filename)
        (filename ++ ".backup_" ++ formatTimestamp now) (.invalid raw))
        filename (.jlist []) := by
    unfold DataStorage.ensure_data_file
    rw [h1]
    rfl
  rw [hres, hren, hens]
  refine ⟨rfl, ?_, ?_, fun hv => matchesTSPattern_formatTimestampL now hv⟩
  · rw [fsLookup_fsWrite_ne _ _ _ _ hbne]
    exact fsLookup_fsWrite_self _ _ _
  · exact fsLookup_fsWrite_self _ _ _

/-- Witness for C6: the corrupt demo store is backed up under the
timestamped name, replaced by an empty store, and the empty collection
is returned. -/
theorem load_tasks_corrupt_spec_witness :
    (DataStorage.load_tasks fsBad "tasks.json" nowTS).1 = [] ∧
    fsLookup (DataStorage.load_tasks fsBad "tasks.json" nowTS).2
        ("tasks.json" ++ ".backup_" ++ formatTimestamp nowTS) =
      some (.invalid "not json at all") ∧
    fsLookup (DataStorage.load_tasks fsBad "tasks.json" nowTS).2 "tasks.json" =
      some (.jlist []) ∧
    matchesTSPattern (formatTimestamp nowTS).data = true :=
  ⟨(load_tasks_corrupt_spec fsBad "tasks.json" nowTS "not json at all" (by decide)).1,
   (load_tasks_corrupt_spec fsBad "tasks.json" nowTS "not json at all" (by decide)).2.1,
   (load_tasks_corrupt_spec fsBad "tasks.json" nowTS "not json at all" (by decide)).2.2.1,
   (load_tasks_corrupt_spec fsBad "tasks.json" nowTS "not json at all" (by decide)).2.2.2
     (by decide)⟩

/-- Reshaping of `save_tasks` exposing its backup phase. -/
theorem save_tasks_eq (fs : FS) (filename : String) (o : DataStorage.IOOracle)
    (records : List Record) :
    DataStorage.save_tasks fs filename o records =
      (let fs1 := DataStorage.save_backup_phase fs filename o
       if o.writeOk then (true, fsWrite fs1 filename (.jlist records))
       else
         let fs2 := fsWrite fs1 filename o.badContent
         match fsLookup fs2 (filename ++ ".bak") with
         | some b =>
           if o.restoreOk then (false, fsWrite fs2 filename b) else (false, fs2)
         | none => (false, fs2)) := by
  unfold DataStorage.save_tasks DataStorage.save_backup_phase
  rfl

/-- The Boolean result of `save_tasks` is exactly the write outcome. -/
theorem save_tasks_fst (fs : FS) (filename : String) (o : DataStorage.IOOracle)
    (records : List Record) :
    (DataStorage.save_tasks fs filename o records).1 = o.writeOk := by
  rw [save_tasks_eq]
  cases hw : o.writeOk
  · simp only [hw, Bool.false_eq_true, if_false]
    split
    · split <;> rfl
    · rfl
  · simp [hw]

/-- On write success the target file holds exactly the given records. -/
theorem save_tasks_write_target (fs : FS) (filename : String)
    (o : DataStorage.IOOracle) (records : List Record)
    (hw : o.writeOk = true) :
    fsLookup (DataStorage.save_tasks fs filename o records).2 filename =
      some (.jlist records) := by
  rw [save_tasks_eq]
  simp only [hw, if_true]
  exact fsLookup_fsWrite_self _ _ _

/-- When the target existed and the backup copy succeeds, the `.bak` file
holds the old target content afterwards, on both the success and the
failure path. -/
theorem save_tasks_bak_content (fs : FS) (filename : String)
    (o : DataStorage.IOOracle) (records : List Record) (c : JsonContent)
    (hfl : fsLookup fs filename = some c) (hcp : o.copyOk = true) :
    fsLookup (DataStorage.save_tasks fs filename o records).2
      (filename ++ ".bak") = some c := by
  have hb : fsLookup (DataStorage.save_backup_phase fs filename o)
      (filename ++ ".bak") = some c := by
    unfold DataStorage.save_backup_phase
    rw [hfl]
    simp only [hcp, if_true]
    exact fsLookup_fsWrite_self _ _ _
  rw [save_tasks_eq]
  cases hw : o.writeOk
  · simp only [Bool.false_eq_true, if_false]
    have h2 : fsLookup (fsWrite (DataStorage.save_backup_phase fs filename o)
        filename o.badContent) (filename ++ ".bak") = some c := by
      rw [fsLookup_fsWrite_ne _ _ _ _ (bak_ne_self filename)]
      exact hb
    simp only [h2]
    cases hr : o.restoreOk
    · simp only [Bool.false_eq_true, if_false]
      exact h2
    · simp only [if_true]
      rw [fsLookup_fsWrite_ne _ _ _ _ (bak_ne_self filename)]
      exact h2
  · simp only [if_true]
    rw [fsLookup_fsWrite_ne _ _ _ _ (bak_ne_self filename)]
    exact hb

/-- On write failure with a `.bak` present after the backup phase and a
successful restore, the target file holds the backup content. -/
theorem save_tasks_restore (fs : FS) (filename : String)
    (o : DataStorage.IOOracle) (records : List Record) (b : JsonContent)
    (hw : o.writeOk = false) (hr : o.restoreOk = true)
    (hb : fsLookup (DataStorage.save_backup_phase fs filename o)
      (filename ++ ".bak") = some b) :
    fsLookup (DataStorage.save_tasks fs filename o records).2 filename =
      some b := by
  rw [save_tasks_eq]
  simp only [hw, Bool.false_eq_true, if_false]
  have h2 : fsLookup (fsWrite (DataStorage.save_backup_phase fs filename o)
      filename o.badContent) (filename ++ ".bak") = some b := by
    rw [fsLookup_fsWrite_ne _ _ _ _ (bak_ne_self filename)]
    exact hb
  simp only [h2, hr, if_true]
  exact fsLookup_fsWrite_self _ _ _

/-- Claim C7: `save_tasks` (a) always returns a Boolean — exactly the
write outcome, true on success, false on failure, never raising (the
function is total); (b) on success replaces the target file contents
entirely with the given record sequence; (c) when the target existed and
the best-effort copy succeeded, leaves the old target content in
`<file>.bak`; (d) on write failure with a `.bak` available after the
backup phase and a successful restore copy, restores the target from
`.bak`. -/
theorem save_tasks_spec (fs : FS) (filename : String)
    (o : DataStorage.IOOracle) (records : List Record) :
    (DataStorage.save_tasks fs filename o records).1 = o.writeOk ∧
    (o.writeOk = true →
      fsLookup (DataStorage.save_tasks fs filename o records).2 filename =
        some (.jlist records)) ∧
    (∀ c, fsLookup fs filename = some c → o.copyOk = true →
      fsLookup (DataStorage.save_tasks fs filename o records).2
        (filename ++ ".bak") = some c) ∧
    (o.writeOk = false → o.restoreOk = true →
      ∀ b, fsLookup (DataStorage.save_backup_phase fs filename o)
          (filename ++ ".bak") = some b →
        fsLookup (DataStorage.save_tasks fs filename o records).2 filename =
          some b) :=
  ⟨save_tasks_fst fs filename o records,
   fun hw => save_tasks_write_target fs filename o records hw,
   fun c hfl hcp => save_tasks_bak_content fs filename o records c hfl hcp,
   fun hw hr b hb => save_tasks_restore fs filename o records b hw hr hb⟩

/-- Witness for C7: saving over the one-record store — with `allOk` the
file holds the new records and `.bak` the old ones; with `writeFails`
the call reports failure and the target is restored from `.bak`. -/
theorem save_tasks_spec_witness :
    (DataStorage.save_tasks fsGood "tasks.json" writeFails
      [dupTask1.to_dict]).1 = writeFails.writeOk ∧
    fsLookup (DataStorage.save_tasks fsGood "tasks.json" allOk
        [dupTask1.to_dict]).2 "tasks.json" = some (.jlist [dupTask1.to_dict]) ∧
    fsLookup (DataStorage.save_tasks fsGood "tasks.json" allOk
        [dupTask1.to_dict]).2 ("tasks.json" ++ ".bak") =
      some (.jlist [buyMilk.to_dict]) ∧
    fsLookup (DataStorage.save_tasks fsGood "tasks.json" writeFails
        [dupTask1.to_dict]).2 "tasks.json" = some (.jlist [buyMilk.to_dict]) :=
  ⟨(save_tasks_spec fsGood "tasks.json" writeFails [dupTask1.to_dict]).1,
   (save_tasks_spec fsGood "tasks.json" allOk [dupTask1.to_dict]).2.1 rfl,
   (save_tasks_spec fsGood "tasks.json" allOk [dupTask1.to_dict]).2.2.1
     (.jlist [buyMilk.to_dict]) rfl rfl,
   (save_tasks_spec fsGood "tasks.json" writeFails [dupTask1.to_dict]).2.2.2
     rfl rfl (.jlist [buyMilk.to_dict]) rfl⟩

end TaskMaster
